import Mathlib

/-!
Verification of the Find_your_friend exoplanet backend.

This file gives a shallow embedding of the parts of the backend that the
specification talks about, and proves the specified properties about them:

* `validate_probability` embeds `ExoplanetModel._validate_probability`
  (src/back/app/ml/model_wrapper_updated.py).  Python floats are modelled as
  rationals; the non-finite inputs (`None`, `NaN`, `Inf`) are explicit
  constructors of `RawOutput`.
* `round_probability` embeds `ExoplanetModel._round_probability`
  (Python `round(x, 4)`, which rounds half to even).
* `get_confidence` embeds `ExoplanetModel._get_confidence`.
* `predict` embeds the pure core of `ExoplanetModel.predict`
  (validation, rounding, thresholding, confidence bucketing).
* `calculate_reward_pure` embeds the reward branch of
  `PredictionService.calculate_reward` (src/back/app/services/prediction_service.py).
* `prepare_features` embeds `ExoplanetModel._prepare_features`; a Python
  feature dict is modelled as an association list, and a cell value is an
  `Option ℚ` whose `none` is the `np.nan` missing marker.
-/

namespace FindYourFriend

/-- A raw scalar output of the classifier as seen by the wrapper: either the
Python value `None`, a `NaN` float, an infinite float, or a finite value
(modelled as a rational). -/
inductive RawOutput where
  | null : RawOutput
  | nan : RawOutput
  | inf : RawOutput
  | val : ℚ → RawOutput
deriving DecidableEq, Repr

/-- Embedding of `ExoplanetModel._validate_probability`: reject `None`, `NaN`
and `Inf`; if the value is `> 1` treat it as a 0-100 percentage (rejecting
values outside 0-100) and divide by 100; otherwise treat it as already
normalized (rejecting values outside 0-1). -/
def validate_probability : RawOutput → Except String ℚ
  | .null => .error "Model output is None - prediction failed"
  | .nan => .error "Model output is NaN - invalid prediction"
  | .inf => .error "Model output is Inf"
  | .val r =>
    if 1 < r then
      if r < 0 ∨ 100 < r then
        .error "Model output is outside valid range 0-100"
      else
        .ok (r / 100)
    else
      if r < 0 ∨ 1 < r then
        .error "Model output is outside valid range 0-1"
      else
        .ok r

/-- Round a rational to the nearest integer, ties to even (the rounding mode
of Python `round`). -/
def round_half_even (q : ℚ) : ℤ :=
  if q - ⌊q⌋ < 1/2 then ⌊q⌋
  else if 1/2 < q - ⌊q⌋ then ⌊q⌋ + 1
  else if ⌊q⌋ % 2 = 0 then ⌊q⌋ else ⌊q⌋ + 1

/-- Embedding of `ExoplanetModel._round_probability` with its default
`decimals = 4`: Python `round(probability, 4)`. -/
def round_probability (probability : ℚ) : ℚ :=
  (round_half_even (probability * 10000) : ℚ) / 10000

/-- Embedding of `ExoplanetModel._get_confidence`. -/
def get_confidence (probability : ℚ) : String :=
  if 9/10 ≤ probability ∨ probability ≤ 1/10 then "high"
  else if 7/10 ≤ probability ∨ probability ≤ 3/10 then "medium"
  else "low"

/-- The fields of the dictionary returned by `ExoplanetModel.predict` that the
specification talks about. -/
structure PredictResult where
  probability : ℚ
  prediction : String
  confidence : String
  model_version : String
deriving DecidableEq, Repr

/-- The model version string of the updated wrapper (`self.model_version`). -/
def model_version_string : String := "v1.1"

/-- Embedding of the pure core of `ExoplanetModel.predict`: validate and
normalize the raw output, round it, compare against the threshold to pick the
label, and bucket the confidence.  A validation failure propagates as the
error case. -/
def predict (raw : RawOutput) (threshold : ℚ) : Except String PredictResult :=
  (validate_probability raw).map fun proba_normalized =>
    let proba_final := round_probability proba_normalized
    { probability := proba_final,
      prediction := if threshold ≤ proba_final then "CONFIRMED" else "FALSE POSITIVE",
      confidence := get_confidence proba_final,
      model_version := model_version_string }

/-- The reward fields of `RewardResponse` that `calculate_reward` computes. -/
structure RewardResult where
  reward_granted : Bool
  points_earned : ℕ
  upgrade_level : Option ℕ
deriving DecidableEq, Repr

/-- Embedding of the reward branch of `PredictionService.calculate_reward`:
a pure function of the prediction label and the probability. -/
def calculate_reward_pure (prediction_label : String) (probability : ℚ) : RewardResult :=
  if prediction_label = "CONFIRMED" then
    if 9/10 ≤ probability then
      { reward_granted := true, points_earned := 100, upgrade_level := some 3 }
    else if 7/10 ≤ probability then
      { reward_granted := true, points_earned := 50, upgrade_level := some 2 }
    else
      { reward_granted := true, points_earned := 25, upgrade_level := some 1 }
  else
    { reward_granted := false, points_earned := 0, upgrade_level := none }

/-- The sentinel "missing" marker substituted for an absent feature:
`np.nan`, modelled as `none`. -/
def nan_marker : Option ℚ := none

/-- Embedding of `ExoplanetModel._prepare_features`: build the feature vector
in the canonical order of `feature_names`, taking each value from the feature
dict (an association list) and substituting the missing marker when absent. -/
def prepare_features (feature_names : List String) (features : List (String × ℚ)) :
    List (Option ℚ) :=
  feature_names.map fun feature_name => features.lookup feature_name

/-- A row of the `planets` table (src/back/app/models/planet.py), with the
fields the specified operations read or write.  Numeric columns are modelled
as rationals. -/
structure Planet where
  id : ℕ
  rowid : ℤ
  ra : ℚ
  dec : ℚ
  r : ℚ
  disposition : String
  ai_probability : Option ℚ
  prediction_label : Option String
  confidence : Option String
  model_version : Option String
  features : List (String × ℚ)
deriving DecidableEq, Repr

/-- The planets table, in insertion order. -/
abbrev DB := List Planet

/-- The two exception kinds that `PredictionService.predict_planet` can raise:
`NotFoundException` and `AIServiceException`. -/
inductive PredError where
  | notFound : PredError
  | aiService : String → PredError
deriving DecidableEq, Repr

/-- The fields of `PredictionResponse` (src/back/app/schemas/planet.py) that
`predict_planet` fills from the planet and the model result. -/
structure PredictionResponse where
  planet_id : ℕ
  rowid : ℤ
  probability : ℚ
  prediction : String
  confidence : String
  model_version : String
deriving DecidableEq, Repr

/-- Embedding of `PlanetService.get_planet_by_id`: first row with the given
id, `NotFoundException` when absent. -/
def get_planet_by_id (db : DB) (planet_id : ℕ) : Except PredError Planet :=
  match db.find? (fun p => p.id == planet_id) with
  | some planet => .ok planet
  | none => .error .notFound

/-- Embedding of `PlanetService.update_planet_prediction`: look the planet up
(raising `NotFoundException` when absent) and overwrite its four prediction
fields. -/
def update_planet_prediction (db : DB) (planet_id : ℕ) (probability : ℚ)
    (prediction_label : String) (confidence : String) (model_version : String) :
    Except PredError DB :=
  match db.find? (fun p => p.id == planet_id) with
  | none => .error .notFound
  | some _ =>
    .ok (db.map fun p =>
      if p.id == planet_id then
        { p with
          ai_probability := some probability,
          prediction_label := some prediction_label,
          confidence := some confidence,
          model_version := some model_version }
      else p)

/-- The classifier itself (a trained RandomForest) is opaque to this
development: an oracle maps a feature dict to a raw scalar output. -/
abbrev Oracle := List (String × ℚ) → RawOutput

/-- Embedding of `PredictionService.predict_planet`: fetch the planet
(`NotFoundException` propagates), run the model on its features (any model
failure is wrapped into `AIServiceException`), store the prediction only when
`ai_probability` is still `None`, and build the response from the model
result. -/
def predict_planet (oracle : Oracle) (db : DB) (planet_id : ℕ) :
    Except PredError (PredictionResponse × DB) :=
  match get_planet_by_id db planet_id with
  | .error e => .error e
  | .ok planet =>
    match predict (oracle planet.features) (1/2) with
    | .error e => .error (.aiService e)
    | .ok result =>
      match (if planet.ai_probability.isNone then
               update_planet_prediction db planet.id result.probability
                 result.prediction result.confidence result.model_version
             else .ok db) with
      | .error _ => .error (.aiService "Prediction failed")
      | .ok db2 =>
        .ok ({ planet_id := planet.id,
               rowid := planet.rowid,
               probability := result.probability,
               prediction := result.prediction,
               confidence := result.confidence,
               model_version := result.model_version }, db2)

/-- Embedding of `PredictionService.batch_predict`: run `predict_planet` for
each requested id in order, threading the table through, skipping ids whose
call raises `NotFoundException` or `AIServiceException`. -/
def batch_predict (oracle : Oracle) : DB → List ℕ → List PredictionResponse × DB
  | db, [] => ([], db)
  | db, planet_id :: rest =>
    match predict_planet oracle db planet_id with
    | .ok (resp, db2) =>
      let step := batch_predict oracle db2 rest
      (resp :: step.1, step.2)
    | .error _ => batch_predict oracle db rest

/-- The `total_processed` field computed by the `/predict/batch` router:
the length of the returned prediction list. -/
def total_processed (predictions : List PredictionResponse) : ℕ :=
  predictions.length

/-- The observable outcome of one prediction call: the response on success,
`none` when `NotFoundException` or `AIServiceException` is raised. -/
def predict_outcome (oracle : Oracle) (db : DB) (planet_id : ℕ) :
    Option PredictionResponse :=
  ((predict_planet oracle db planet_id).toOption).map Prod.fst

/-- Embedding of the pydantic validation of `PlanetCreate`
(src/back/app/schemas/planet.py): `r` is constrained to `[0.1, 5.0]` and
`ai_probability`, when given, to `[0, 1]`. -/
def planet_create_valid (p : Planet) : Bool :=
  decide (1/10 ≤ p.r) && decide (p.r ≤ 5) &&
    (match p.ai_probability with
     | none => true
     | some q => decide (0 ≤ q) && decide (q ≤ 1))

/-- Embedding of `PlanetService.create_planet`: reject a duplicate `rowid`
(`AlreadyExistsException`), otherwise insert the new row. -/
def create_planet (db : DB) (planet : Planet) : Except String DB :=
  if (db.find? (fun p => p.rowid == planet.rowid)).isSome then
    .error "Planet already exists"
  else
    .ok (db ++ [planet])

/-- The operations that create or update planet rows in normal operation:
creation of a row that passed `PlanetCreate` validation, and a successful
prediction call (which stores a validated, rounded prediction). -/
inductive DBStep (oracle : Oracle) : DB → DB → Prop where
  | create (db : DB) (planet : Planet) (db2 : DB)
      (hvalid : planet_create_valid planet = true)
      (hok : create_planet db planet = .ok db2) : DBStep oracle db db2
  | predicted (db : DB) (planet_id : ℕ) (resp : PredictionResponse) (db2 : DB)
      (hok : predict_planet oracle db planet_id = .ok (resp, db2)) : DBStep oracle db db2

/-- The data-model invariant on stored probabilities: every present
`ai_probability` lies in `[0, 1]`. -/
def prob_in_range (db : DB) : Prop :=
  ∀ p ∈ db, ∀ q, p.ai_probability = some q → 0 ≤ q ∧ q ≤ 1

/-- `np.radians`: degrees to radians. -/
noncomputable def radians (d : ℝ) : ℝ := d * (Real.pi / 180)

/-- `np.degrees`: radians to degrees. -/
noncomputable def degrees (x : ℝ) : ℝ := x * (180 / Real.pi)

/-- `np.arctan2 y x`: the angle of the point `(x, y)`, in `(-π, π]`, by the
standard piecewise-arctangent definition (with `arctan2 0 0 = 0`). -/
noncomputable def arctan2 (y x : ℝ) : ℝ :=
  if 0 < x then Real.arctan (y / x)
  else if x < 0 then
    (if 0 ≤ y then Real.arctan (y / x) + Real.pi else Real.arctan (y / x) - Real.pi)
  else
    (if 0 < y then Real.pi / 2 else if y < 0 then -(Real.pi / 2) else 0)

/-- The `Coordinates3D` schema: a Cartesian point for visualization. -/
structure Coordinates3D where
  x : ℝ
  y : ℝ
  z : ℝ

/-- Embedding of `ra_dec_to_xyz` (src/back/app/utils/coordinates.py). -/
noncomputable def ra_dec_to_xyz (ra dec r : ℝ) : Coordinates3D :=
  let ra_rad := radians ra
  let dec_rad := radians dec
  { x := r * Real.cos dec_rad * Real.cos ra_rad,
    y := r * Real.cos dec_rad * Real.sin ra_rad,
    z := r * Real.sin dec_rad }

/-- Embedding of `xyz_to_ra_dec` (src/back/app/utils/coordinates.py):
returns `(ra, dec, r)` in degrees, with `ra` normalized to `[0, 360)` and
`dec = 0` when `r` is not positive. -/
noncomputable def xyz_to_ra_dec (x y z : ℝ) : ℝ × ℝ × ℝ :=
  let r := Real.sqrt (x ^ 2 + y ^ 2 + z ^ 2)
  let dec := if 0 < r then degrees (Real.arcsin (z / r)) else 0
  let ra0 := degrees (arctan2 y x)
  let ra := if ra0 < 0 then ra0 + 360 else ra0
  (ra, dec, r)

/-- A concrete already-predicted planet row, used to evaluate the table
operations on sample data. -/
def sample_planet_predicted : Planet :=
  { id := 1, rowid := 7, ra := 10, dec := 20, r := 1,
    disposition := "CANDIDATE", ai_probability := some (3/10),
    prediction_label := some "FALSE POSITIVE", confidence := some "medium",
    model_version := some "v1.0", features := [] }

/-- A concrete fresh (not yet predicted) planet row. -/
def sample_planet_fresh : Planet :=
  { id := 2, rowid := 8, ra := 15, dec := -5, r := 2,
    disposition := "CANDIDATE", ai_probability := none,
    prediction_label := none, confidence := none,
    model_version := none, features := [] }

/-- A constant model oracle that always outputs the raw value 0. -/
def sample_oracle : Oracle := fun _ => .val 0

/-- The prediction response the sample oracle produces for the planet with
id 1 and rowid 7. -/
def sample_response : PredictionResponse :=
  { planet_id := 1, rowid := 7, probability := 0,
    prediction := "FALSE POSITIVE", confidence := "high",
    model_version := "v1.1" }

/-- C1: for every finite raw model output `r`, if `1 < r ≤ 100` then
`_validate_probability` returns `r / 100`, and if `0 ≤ r ≤ 1` it returns `r`
unchanged. -/
theorem validate_probability_normalizes (r : ℚ) :
    (1 < r → r ≤ 100 → validate_probability (.val r) = .ok (r / 100)) ∧
    (0 ≤ r → r ≤ 1 → validate_probability (.val r) = .ok r) := by
  constructor
  · intro h1 h100
    simp only [validate_probability]
    rw [if_pos h1, if_neg (by push_neg; exact ⟨by linarith, by linarith⟩)]
  · intro h0 hle
    simp only [validate_probability]
    rw [if_neg (by linarith : ¬ 1 < r), if_neg (by push_neg; exact ⟨by linarith, by linarith⟩)]

/-- Witness for C1: the normalization rules evaluated at the raw outputs
`85` and `1/2`. -/
theorem validate_probability_normalizes_witness :
    validate_probability (.val 85) = .ok (85 / 100) ∧
    validate_probability (.val (1/2)) = .ok (1/2) :=
  ⟨(validate_probability_normalizes 85).1 (by norm_num) (by norm_num),
   (validate_probability_normalizes (1/2)).2 (by norm_num) (by norm_num)⟩

/-- C2: `_validate_probability` raises a `ValueError` exactly when the raw
output is `None`, `NaN`, `Inf`, negative, or greater than 100; the error case
of `Except` produces no normalized probability. -/
theorem validate_probability_error_iff (raw : RawOutput) :
    (∃ e, validate_probability raw = .error e) ↔
      (raw = .null ∨ raw = .nan ∨ raw = .inf ∨
        ∃ r, raw = .val r ∧ (r < 0 ∨ 100 < r)) := by
  cases raw with
  | null => simp [validate_probability]
  | nan => simp [validate_probability]
  | inf => simp [validate_probability]
  | val r =>
    have hrhs : (RawOutput.val r = RawOutput.null ∨ RawOutput.val r = RawOutput.nan ∨
        RawOutput.val r = RawOutput.inf ∨
        ∃ s, RawOutput.val r = RawOutput.val s ∧ (s < 0 ∨ 100 < s)) ↔
        (r < 0 ∨ 100 < r) := by
      simp
    rw [hrhs]
    constructor
    · rintro ⟨e, he⟩
      by_contra hcon
      push_neg at hcon
      obtain ⟨h0, h100⟩ := hcon
      simp only [validate_probability] at he
      split_ifs at he with h1 h2 h3 <;>
        first
        | exact Except.noConfusion he
        | exact h2.elim (fun h => absurd h (not_lt.mpr h0)) fun h => absurd h (not_lt.mpr h100)
        | exact h3.elim (fun h => absurd h (not_lt.mpr h0)) fun h => absurd h h1
    · intro hbad
      simp only [validate_probability]
      rcases hbad with hneg | hbig
      · rw [if_neg (by linarith : ¬ 1 < r), if_pos (Or.inl hneg)]
        exact ⟨_, rfl⟩
      · rw [if_pos (by linarith : 1 < r), if_pos (Or.inr hbig)]
        exact ⟨_, rfl⟩

/-- C3: `_get_confidence` returns `"high"` when the probability is `≥ 0.9` or
`≤ 0.1`, `"medium"` when it is not in the high band but is `≥ 0.7` or
`≤ 0.3`, and `"low"` otherwise; in particular `0.95 ↦ "high"`,
`0.8 ↦ "medium"`, `0.5 ↦ "low"`. -/
theorem get_confidence_buckets (p : ℚ) :
    ((9/10 ≤ p ∨ p ≤ 1/10) → get_confidence p = "high") ∧
    (¬(9/10 ≤ p ∨ p ≤ 1/10) → (7/10 ≤ p ∨ p ≤ 3/10) → get_confidence p = "medium") ∧
    (¬(9/10 ≤ p ∨ p ≤ 1/10) → ¬(7/10 ≤ p ∨ p ≤ 3/10) → get_confidence p = "low") ∧
    get_confidence (95/100) = "high" ∧
    get_confidence (8/10) = "medium" ∧
    get_confidence (5/10) = "low" := by
  refine ⟨fun h => ?_, fun h1 h2 => ?_, fun h1 h2 => ?_, ?_, ?_, ?_⟩
  · unfold get_confidence
    rw [if_pos h]
  · unfold get_confidence
    rw [if_neg h1, if_pos h2]
  · unfold get_confidence
    rw [if_neg h1, if_neg h2]
  · unfold get_confidence
    rw [if_pos (by norm_num)]
  · unfold get_confidence
    rw [if_neg (by push_neg; norm_num), if_pos (by norm_num)]
  · unfold get_confidence
    rw [if_neg (by push_neg; norm_num), if_neg (by push_neg; norm_num)]

/-- Helper: rounding half to even never goes below any integer lower bound of
the input. -/
theorem le_round_half_even (q : ℚ) (n : ℤ) (h : (n : ℚ) ≤ q) : n ≤ round_half_even q := by
  have hfl : n ≤ ⌊q⌋ := Int.le_floor.mpr h
  unfold round_half_even
  split_ifs <;> omega

/-- Helper: rounding half to even never exceeds any integer upper bound of
the input. -/
theorem round_half_even_le (q : ℚ) (n : ℤ) (h : q ≤ (n : ℚ)) : round_half_even q ≤ n := by
  have hfl : ⌊q⌋ ≤ n := by
    have := Int.floor_mono h
    simpa using this
  have hceil : ⌈q⌉ ≤ n := Int.ceil_le.mpr h
  unfold round_half_even
  split_ifs with h1 h2 h3
  · exact hfl
  · have hlt : (⌊q⌋ : ℚ) < q := by linarith
    have := Int.add_one_le_ceil_iff.mpr hlt
    omega
  · exact hfl
  · have hlt : (⌊q⌋ : ℚ) < q := by
      have hhalf : (1 : ℚ)/2 ≤ q - ⌊q⌋ := by linarith
      linarith
    have := Int.add_one_le_ceil_iff.mpr hlt
    omega

/-- Helper: `round_probability` preserves the interval `[0, 1]`. -/
theorem round_probability_mem (p : ℚ) (h0 : 0 ≤ p) (h1 : p ≤ 1) :
    0 ≤ round_probability p ∧ round_probability p ≤ 1 := by
  have hlo : (0 : ℤ) ≤ round_half_even (p * 10000) :=
    le_round_half_even _ 0 (by push_cast; nlinarith)
  have hhi : round_half_even (p * 10000) ≤ 10000 :=
    round_half_even_le _ 10000 (by push_cast; nlinarith)
  unfold round_probability
  constructor
  · positivity
  · rw [div_le_one (by norm_num)]
    exact_mod_cast hhi

/-- Helper: rounding an integer value is the identity. -/
theorem round_half_even_intCast (n : ℤ) : round_half_even (n : ℚ) = n := by
  unfold round_half_even
  rw [Int.floor_intCast]
  norm_num

/-- Helper: every probability that `_validate_probability` accepts lies in
`[0, 1]`. -/
theorem validate_probability_ok_range (raw : RawOutput) (p : ℚ)
    (h : validate_probability raw = .ok p) : 0 ≤ p ∧ p ≤ 1 := by
  cases raw with
  | null => exact Except.noConfusion h
  | nan => exact Except.noConfusion h
  | inf => exact Except.noConfusion h
  | val r =>
    simp only [validate_probability] at h
    by_cases h1 : 1 < r
    · rw [if_pos h1] at h
      by_cases h2 : r < 0 ∨ 100 < r
      · rw [if_pos h2] at h
        exact Except.noConfusion h
      · rw [if_neg h2] at h
        push_neg at h2
        obtain rfl : r / 100 = p := by simpa using h
        constructor
        · exact div_nonneg h2.1 (by norm_num)
        · rw [div_le_one (by norm_num : (0:ℚ) < 100)]
          exact h2.2
    · rw [if_neg h1] at h
      by_cases h3 : r < 0 ∨ 1 < r
      · rw [if_pos h3] at h
        exact Except.noConfusion h
      · rw [if_neg h3] at h
        push_neg at h3
        obtain rfl : r = p := by simpa using h
        exact h3

/-- Helper: characterization of a successful `predict` call. -/
theorem predict_ok_iff (raw : RawOutput) (t : ℚ) (res : PredictResult) :
    predict raw t = .ok res ↔
      ∃ p, validate_probability raw = .ok p ∧
        res = { probability := round_probability p,
                prediction :=
                  if t ≤ round_probability p then "CONFIRMED" else "FALSE POSITIVE",
                confidence := get_confidence (round_probability p),
                model_version := model_version_string } := by
  cases hv : validate_probability raw with
  | error e => simp [predict, hv, Except.map]
  | ok p => simp [predict, hv, Except.map, eq_comm]

/-- Witness for C3: the three bucket rules applied at `0.95`, `0.8` and
`0.5`. -/
theorem get_confidence_buckets_witness :
    get_confidence (95/100) = "high" ∧
    get_confidence (8/10) = "medium" ∧
    get_confidence (5/10) = "low" :=
  ⟨(get_confidence_buckets (95/100)).1 (by norm_num),
   (get_confidence_buckets (8/10)).2.1 (by push_neg; norm_num) (by norm_num),
   (get_confidence_buckets (5/10)).2.2.1 (by push_neg; norm_num) (by push_neg; norm_num)⟩

/-- C4: for every valid raw output, `predict` labels the planet `"CONFIRMED"`
exactly when the rounded normalized probability is `≥` the `0.5` threshold and
`"FALSE POSITIVE"` exactly otherwise; in particular raw input `85` normalizes
to `0.85` and yields label `"CONFIRMED"` and confidence `"medium"`. -/
theorem predict_threshold_spec (raw : RawOutput) (res : PredictResult)
    (h : predict raw (1/2) = .ok res) :
    (res.prediction = "CONFIRMED" ↔ 1/2 ≤ res.probability) ∧
    (res.prediction = "FALSE POSITIVE" ↔ res.probability < 1/2) ∧
    predict (.val 85) (1/2) =
      .ok { probability := 85/100, prediction := "CONFIRMED",
            confidence := "medium", model_version := "v1.1" } := by
  obtain ⟨p, hv, rfl⟩ := (predict_ok_iff raw (1/2) res).mp h
  refine ⟨?_, ?_, ?_⟩
  · by_cases ht : (1:ℚ)/2 ≤ round_probability p
    · simp only [if_pos ht]
      constructor
      · intro _
        exact ht
      · intro _
        trivial
    · simp only [if_neg ht]
      constructor
      · intro hstr
        first
        | exact hstr.elim
        | exact absurd hstr (by simp)
      · intro hle
        exact absurd hle ht
  · by_cases ht : (1:ℚ)/2 ≤ round_probability p
    · simp only [if_pos ht]
      constructor
      · intro hstr
        first
        | exact hstr.elim
        | exact absurd hstr (by simp)
      · intro hlt
        exact absurd ht (not_le.mpr hlt)
    · simp only [if_neg ht]
      constructor
      · intro _
        exact not_le.mp ht
      · intro _
        trivial
  · have hv85 : validate_probability (.val 85) = .ok (85 / 100) := by
      simp only [validate_probability]
      rw [if_pos (by norm_num : (1:ℚ) < 85),
        if_neg (by push_neg; constructor <;> norm_num)]
    have hr85 : round_probability (85/100) = 85/100 := by
      have hcast : (85/100 : ℚ) * 10000 = ((8500 : ℤ) : ℚ) := by norm_num
      rw [round_probability, hcast, round_half_even_intCast]
      norm_num
    refine (predict_ok_iff (.val 85) (1/2) _).mpr ⟨85/100, hv85, ?_⟩
    rw [hr85, if_pos (by norm_num : (1:ℚ)/2 ≤ 85/100)]
    have hc : get_confidence (85/100) = "medium" := by
      unfold get_confidence
      rw [if_neg (by push_neg; norm_num), if_pos (by norm_num)]
    rw [hc]
    rfl

/-- Witness for C4: the threshold rule applied to the concrete prediction
obtained from raw output `85`. -/
theorem predict_threshold_spec_witness :
    (({ probability := 85/100, prediction := "CONFIRMED", confidence := "medium",
        model_version := "v1.1" } : PredictResult).prediction = "CONFIRMED" ↔
      1/2 ≤ ({ probability := 85/100, prediction := "CONFIRMED", confidence := "medium",
               model_version := "v1.1" } : PredictResult).probability) := by
  have hv85 : validate_probability (.val 85) = .ok (85 / 100) := by
    simp only [validate_probability]
    rw [if_pos (by norm_num : (1:ℚ) < 85),
      if_neg (by push_neg; constructor <;> norm_num)]
  have hr85 : round_probability (85/100) = 85/100 := by
    have hcast : (85/100 : ℚ) * 10000 = ((8500 : ℤ) : ℚ) := by norm_num
    rw [round_probability, hcast, round_half_even_intCast]
    norm_num
  have hc : get_confidence (85/100) = "medium" := by
    unfold get_confidence
    rw [if_neg (by push_neg; norm_num), if_pos (by norm_num)]
  have h85 : predict (.val 85) (1/2) =
      .ok { probability := 85/100, prediction := "CONFIRMED", confidence := "medium",
            model_version := "v1.1" } := by
    refine (predict_ok_iff (.val 85) (1/2) _).mpr ⟨85/100, hv85, ?_⟩
    rw [hr85, if_pos (by norm_num : (1:ℚ)/2 ≤ 85/100), hc]
    rfl
  exact (predict_threshold_spec (.val 85) _ h85).1

/-- C5: the reward computation is a pure function of the stored prediction
label and probability; on a stored prediction (where the label is
`"CONFIRMED"` exactly when the probability reached the `0.5` threshold) it
grants 100 points at tier 3 for probability `≥ 0.9`, 50 points at tier 2 on
`[0.7, 0.9)`, 25 points at tier 1 on `[0.5, 0.7)`, and otherwise 0 points
with no tier. -/
theorem calculate_reward_tiers (label : String) (p : ℚ)
    (hstored : label = "CONFIRMED" ↔ 1/2 ≤ p) :
    (9/10 ≤ p → calculate_reward_pure label p =
      { reward_granted := true, points_earned := 100, upgrade_level := some 3 }) ∧
    (7/10 ≤ p → p < 9/10 → calculate_reward_pure label p =
      { reward_granted := true, points_earned := 50, upgrade_level := some 2 }) ∧
    (1/2 ≤ p → p < 7/10 → calculate_reward_pure label p =
      { reward_granted := true, points_earned := 25, upgrade_level := some 1 }) ∧
    (p < 1/2 → calculate_reward_pure label p =
      { reward_granted := false, points_earned := 0, upgrade_level := none }) := by
  refine ⟨fun h9 => ?_, fun h7 h9 => ?_, fun h5 h7 => ?_, fun hlt => ?_⟩
  · unfold calculate_reward_pure
    rw [if_pos (hstored.mpr (by linarith)), if_pos h9]
  · unfold calculate_reward_pure
    rw [if_pos (hstored.mpr (by linarith)), if_neg (by linarith), if_pos h7]
  · unfold calculate_reward_pure
    rw [if_pos (hstored.mpr (by linarith)), if_neg (by linarith), if_neg (by linarith)]
  · unfold calculate_reward_pure
    rw [if_neg (fun hl => absurd (hstored.mp hl) (by linarith))]

/-- Witness for C5: one stored prediction per tier, with the consistency
hypothesis discharged at each concrete label/probability pair. -/
theorem calculate_reward_tiers_witness :
    calculate_reward_pure "CONFIRMED" (95/100) =
      { reward_granted := true, points_earned := 100, upgrade_level := some 3 } ∧
    calculate_reward_pure "CONFIRMED" (8/10) =
      { reward_granted := true, points_earned := 50, upgrade_level := some 2 } ∧
    calculate_reward_pure "CONFIRMED" (6/10) =
      { reward_granted := true, points_earned := 25, upgrade_level := some 1 } ∧
    calculate_reward_pure "FALSE POSITIVE" (2/10) =
      { reward_granted := false, points_earned := 0, upgrade_level := none } :=
  ⟨(calculate_reward_tiers "CONFIRMED" (95/100)
      (by constructor <;> intro <;> norm_num)).1 (by norm_num),
   (calculate_reward_tiers "CONFIRMED" (8/10)
      (by constructor <;> intro <;> norm_num)).2.1 (by norm_num) (by norm_num),
   (calculate_reward_tiers "CONFIRMED" (6/10)
      (by constructor <;> intro <;> norm_num)).2.2.1 (by norm_num) (by norm_num),
   (calculate_reward_tiers "FALSE POSITIVE" (2/10)
      (by constructor
          · intro hl
            exact absurd hl (by simp)
          · intro hge
            exact absurd hge (by norm_num))).2.2.2 (by norm_num)⟩

/-- C7: the prepared feature vector has exactly one entry per canonical
feature name, in canonical order; an entry is the dict value for its name
when present and the `np.nan` missing marker otherwise; dict entries whose
keys are not canonical names do not affect the vector. -/
theorem prepare_features_spec (feature_names : List String)
    (features : List (String × ℚ)) :
    (prepare_features feature_names features).length = feature_names.length ∧
    (∀ (i : ℕ) name v, feature_names[i]? = some name → features.lookup name = some v →
      (prepare_features feature_names features)[i]? = some (some v)) ∧
    (∀ (i : ℕ) name, feature_names[i]? = some name → features.lookup name = none →
      (prepare_features feature_names features)[i]? = some nan_marker) ∧
    (∀ key v, key ∉ feature_names →
      prepare_features feature_names ((key, v) :: features) =
        prepare_features feature_names features) := by
  refine ⟨List.length_map _ _, ?_, ?_, ?_⟩
  · intro i name v hname hval
    unfold prepare_features
    rw [List.getElem?_map, hname]
    simp [hval]
  · intro i name hname hval
    unfold prepare_features
    rw [List.getElem?_map, hname]
    simp [hval, nan_marker]
  · intro key v hkey
    unfold prepare_features
    refine List.map_congr_left ?_
    intro name hname
    have hne : (name == key) = false :=
      beq_eq_false_iff_ne.mpr fun h => hkey (h ▸ hname)
    simp [List.lookup, hne]

/-- Witness for C7: the vector built from canonical names `["a", "b"]` and
the dict `[("b", 2), ("c", 5)]` : `"b"` is present, `"a"` is missing, and
the extra key `"c"` is ignored. -/
theorem prepare_features_spec_witness :
    (prepare_features ["a", "b"] [("b", 2), ("c", 5)])[1]? = some (some 2) ∧
    (prepare_features ["a", "b"] [("b", 2), ("c", 5)])[0]? = some nan_marker ∧
    prepare_features ["a", "b"] [("c", 5), ("b", 2)] =
      prepare_features ["a", "b"] [("b", 2)] :=
  ⟨(prepare_features_spec ["a", "b"] [("b", 2), ("c", 5)]).2.1 1 "b" 2 rfl rfl,
   (prepare_features_spec ["a", "b"] [("b", 2), ("c", 5)]).2.2.1 0 "a" rfl rfl,
   (prepare_features_spec ["a", "b"] [("b", 2)]).2.2.2 "c" 5 (by decide)⟩

/-- Helper: the prediction produced by the raw output 0. -/
theorem predict_val_zero :
    predict (.val 0) (1/2) =
      .ok { probability := 0, prediction := "FALSE POSITIVE",
            confidence := "high", model_version := "v1.1" } := by
  have hv : validate_probability (.val 0) = .ok 0 := by
    simp only [validate_probability]
    rw [if_neg (by norm_num : ¬ (1:ℚ) < 0),
      if_neg (by push_neg; constructor <;> norm_num)]
  have hr : round_probability 0 = 0 := by
    have hcast : (0 : ℚ) * 10000 = ((0 : ℤ) : ℚ) := by norm_num
    rw [round_probability, hcast, round_half_even_intCast]
    norm_num
  refine (predict_ok_iff (.val 0) (1/2) _).mpr ⟨0, hv, ?_⟩
  rw [hr, if_neg (by norm_num : ¬ (1:ℚ)/2 ≤ 0)]
  have hc : get_confidence 0 = "high" := by
    unfold get_confidence
    rw [if_pos (Or.inr (by norm_num))]
  rw [hc]
  rfl

/-- Helper: a prediction call on the already-predicted sample planet returns
its response and leaves the table unchanged. -/
theorem predict_planet_sample :
    predict_planet sample_oracle [sample_planet_predicted] 1 =
      .ok (sample_response, [sample_planet_predicted]) := by
  have hfind : ([sample_planet_predicted] : DB).find? (fun p => p.id == 1) =
      some sample_planet_predicted := rfl
  simp only [predict_planet, get_planet_by_id, hfind, sample_oracle]
  rw [predict_val_zero]
  simp only [sample_planet_predicted, Option.isNone_some, Bool.false_eq_true, if_false]
  rfl

/-- C9: prediction fields are written only by the first successful prediction
call: when the stored probability is already non-`None`, a prediction call
returns the table entirely unchanged; and a prediction call never deletes a
planet (the sequence of stored ids is preserved exactly). -/
theorem predict_planet_frame (oracle : Oracle) (db : DB) (planet_id : ℕ) :
    (∀ planet q resp db2,
      db.find? (fun p => p.id == planet_id) = some planet →
      planet.ai_probability = some q →
      predict_planet oracle db planet_id = .ok (resp, db2) → db2 = db) ∧
    (∀ resp db2, predict_planet oracle db planet_id = .ok (resp, db2) →
      db2.map Planet.id = db.map Planet.id) := by
  constructor
  · intro planet q resp db2 hfind hprob hok
    simp only [predict_planet, get_planet_by_id, hfind] at hok
    cases hpred : predict (oracle planet.features) (1/2) with
    | error e =>
      rw [hpred] at hok
      exact Except.noConfusion hok
    | ok result =>
      rw [hpred, hprob] at hok
      simp only [Option.isNone_some, Bool.false_eq_true, if_false] at hok
      injection hok with hpair
      exact (congrArg Prod.snd hpair).symm
  · intro resp db2 hok
    cases hfind : db.find? (fun p => p.id == planet_id) with
    | none =>
      simp only [predict_planet, get_planet_by_id, hfind] at hok
      exact Except.noConfusion hok
    | some planet =>
      simp only [predict_planet, get_planet_by_id, hfind] at hok
      cases hpred : predict (oracle planet.features) (1/2) with
      | error e =>
        rw [hpred] at hok
        exact Except.noConfusion hok
      | ok result =>
        rw [hpred] at hok
        by_cases hnone : planet.ai_probability.isNone
        · have hpid : planet.id = planet_id := by
            have hpr := List.find?_some hfind
            simpa using hpr
          simp only [hnone, if_true, hpid, update_planet_prediction, hfind] at hok
          injection hok with hpair
          have hdb2 : db.map (fun p =>
              if p.id == planet_id then
                { p with
                  ai_probability := some result.probability,
                  prediction_label := some result.prediction,
                  confidence := some result.confidence,
                  model_version := some result.model_version }
              else p) = db2 := congrArg Prod.snd hpair
          rw [← hdb2, List.map_map]
          apply List.map_congr_left
          intro a ha
          by_cases hida : a.id == planet_id
          · simp only [Function.comp_apply, if_pos hida]
          · simp only [Function.comp_apply, if_neg hida]
        · rw [Bool.not_eq_true] at hnone
          simp only [hnone, Bool.false_eq_true, if_false] at hok
          injection hok with hpair
          have hdb : db = db2 := congrArg Prod.snd hpair
          rw [← hdb]

/-- Witness for C9: the frame property evaluated on the sample table whose
only planet already stores probability `0.3`. -/
theorem predict_planet_frame_witness :
    ([sample_planet_predicted] : DB) = [sample_planet_predicted] ∧
    ([sample_planet_predicted] : DB).map Planet.id =
      [sample_planet_predicted].map Planet.id :=
  ⟨(predict_planet_frame sample_oracle [sample_planet_predicted] 1).1
      sample_planet_predicted (3/10) sample_response [sample_planet_predicted]
      rfl rfl predict_planet_sample,
   (predict_planet_frame sample_oracle [sample_planet_predicted] 1).2
      sample_response [sample_planet_predicted] predict_planet_sample⟩

/-- C6: after any operation that creates or updates a planet row (creation
with validated input, update by a successful prediction call storing a
validated and rounded result), every stored probability lies in `[0, 1]`. -/
theorem db_step_preserves_prob_range (oracle : Oracle) (db db2 : DB)
    (hstep : DBStep oracle db db2) (hinv : prob_in_range db) :
    prob_in_range db2 := by
  cases hstep with
  | create planet db2x hvalid hok =>
    unfold create_planet at hok
    by_cases hdup : (db.find? (fun p => p.rowid == planet.rowid)).isSome
    · rw [if_pos hdup] at hok
      exact Except.noConfusion hok
    · rw [if_neg hdup] at hok
      injection hok with hdb
      subst hdb
      intro p hp q hq
      rcases List.mem_append.mp hp with hmem | hmem
      · exact hinv p hmem q hq
      · have hpp : p = planet := by simpa using hmem
        subst hpp
        unfold planet_create_valid at hvalid
        rw [hq] at hvalid
        simp only [Bool.and_eq_true, decide_eq_true_eq] at hvalid
        exact hvalid.2
  | predicted planet_id resp db2x hok =>
    cases hfind : db.find? (fun p => p.id == planet_id) with
    | none =>
      simp only [predict_planet, get_planet_by_id, hfind] at hok
      exact Except.noConfusion hok
    | some planet =>
      simp only [predict_planet, get_planet_by_id, hfind] at hok
      cases hpred : predict (oracle planet.features) (1/2) with
      | error e =>
        rw [hpred] at hok
        exact Except.noConfusion hok
      | ok result =>
        rw [hpred] at hok
        have hresbound : 0 ≤ result.probability ∧ result.probability ≤ 1 := by
          obtain ⟨pv, hv, hres⟩ := (predict_ok_iff _ _ _).mp hpred
          obtain ⟨h0, h1⟩ := validate_probability_ok_range _ _ hv
          rw [hres]
          exact round_probability_mem pv h0 h1
        by_cases hnone : planet.ai_probability.isNone
        · have hpid : planet.id = planet_id := by
            have hpr := List.find?_some hfind
            simpa using hpr
          simp only [hnone, if_true, hpid, update_planet_prediction, hfind] at hok
          injection hok with hpair
          have hdb2 : db.map (fun a =>
              if a.id == planet_id then
                { a with
                  ai_probability := some result.probability,
                  prediction_label := some result.prediction,
                  confidence := some result.confidence,
                  model_version := some result.model_version }
              else a) = db2 := congrArg Prod.snd hpair
          rw [← hdb2]
          intro p hp q hq
          obtain ⟨a, ha, rfl⟩ := List.mem_map.mp hp
          by_cases hida : a.id == planet_id
          · simp only [if_pos hida] at hq
            obtain rfl : result.probability = q := by simpa using hq
            exact hresbound
          · simp only [if_neg hida] at hq
            exact hinv a ha q hq
        · rw [Bool.not_eq_true] at hnone
          simp only [hnone, Bool.false_eq_true, if_false] at hok
          injection hok with hpair
          have hdb : db = db2 := congrArg Prod.snd hpair
          rw [← hdb]
          exact hinv

/-- Witness for C6: the invariant propagated through the concrete creation of
the validated sample planet into the empty table. -/
theorem db_step_preserves_prob_range_witness :
    prob_in_range [sample_planet_fresh] :=
  db_step_preserves_prob_range sample_oracle [] [sample_planet_fresh]
    (DBStep.create [] sample_planet_fresh [sample_planet_fresh]
      (by simp only [planet_create_valid, sample_planet_fresh, Bool.and_eq_true,
            decide_eq_true_eq]
          norm_num)
      rfl)
    (fun p hp => absurd hp (List.not_mem_nil p))

/-- Helper: the outcome of a prediction call depends only on the planet found
for the id and on the model result for its features. -/
theorem predict_outcome_eq (oracle : Oracle) (db : DB) (j : ℕ) :
    predict_outcome oracle db j =
      match db.find? (fun p => p.id == j) with
      | none => none
      | some planet =>
        match predict (oracle planet.features) (1/2) with
        | .error _ => none
        | .ok result =>
          some { planet_id := planet.id, rowid := planet.rowid,
                 probability := result.probability,
                 prediction := result.prediction,
                 confidence := result.confidence,
                 model_version := result.model_version } := by
  cases hfind : db.find? (fun p => p.id == j) with
  | none =>
    simp only [predict_outcome, predict_planet, get_planet_by_id, hfind]
    rfl
  | some planet =>
    have hpid : planet.id = j := by
      have hpr := List.find?_some hfind
      simpa using hpr
    simp only [predict_outcome, predict_planet, get_planet_by_id, hfind]
    cases hpred : predict (oracle planet.features) (1/2) with
    | error e => rfl
    | ok result =>
      by_cases hnone : planet.ai_probability.isNone
      · simp only [hnone, if_true, hpid, update_planet_prediction, hfind]
        rfl
      · rw [Bool.not_eq_true] at hnone
        simp only [hnone, Bool.false_eq_true, if_false]
        rfl

/-- Helper: a rewrite of the table that preserves the id, rowid and features
of every row does not change the outcome of any prediction call. -/
theorem predict_outcome_map_pres (oracle : Oracle) (db : DB) (j : ℕ)
    (g : Planet → Planet)
    (hid : ∀ p, (g p).id = p.id) (hrow : ∀ p, (g p).rowid = p.rowid)
    (hfeat : ∀ p, (g p).features = p.features) :
    predict_outcome oracle (db.map g) j = predict_outcome oracle db j := by
  have hfindmap : (db.map g).find? (fun p => p.id == j) =
      (db.find? (fun p => p.id == j)).map g := by
    have hpred : ((fun p : Planet => p.id == j) ∘ g) = fun p : Planet => p.id == j := by
      funext p
      simp [Function.comp, hid]
    rw [List.find?_map, hpred]
  rw [predict_outcome_eq, predict_outcome_eq, hfindmap]
  cases hfind : db.find? (fun p => p.id == j) with
  | none => rfl
  | some planet =>
    simp only [Option.map_some']
    rw [hfeat planet]
    cases predict (oracle planet.features) (1/2) with
    | error e => rfl
    | ok result =>
      rw [hid planet, hrow planet]

/-- Helper: a successful prediction call changes no later prediction
outcome. -/
theorem predict_planet_ok_pres (oracle : Oracle) (db : DB) (pid : ℕ)
    (resp : PredictionResponse) (db2 : DB)
    (hok : predict_planet oracle db pid = .ok (resp, db2)) (j : ℕ) :
    predict_outcome oracle db2 j = predict_outcome oracle db j := by
  cases hfind : db.find? (fun p => p.id == pid) with
  | none =>
    simp only [predict_planet, get_planet_by_id, hfind] at hok
    exact Except.noConfusion hok
  | some planet =>
    simp only [predict_planet, get_planet_by_id, hfind] at hok
    cases hpred : predict (oracle planet.features) (1/2) with
    | error e =>
      rw [hpred] at hok
      exact Except.noConfusion hok
    | ok result =>
      rw [hpred] at hok
      by_cases hnone : planet.ai_probability.isNone
      · have hpid2 : planet.id = pid := by
          have hpr := List.find?_some hfind
          simpa using hpr
        simp only [hnone, if_true, hpid2, update_planet_prediction, hfind] at hok
        injection hok with hpair
        have hdb2 : db.map (fun a =>
            if a.id == pid then
              { a with
                ai_probability := some result.probability,
                prediction_label := some result.prediction,
                confidence := some result.confidence,
                model_version := some result.model_version }
            else a) = db2 := congrArg Prod.snd hpair
        rw [← hdb2]
        apply predict_outcome_map_pres <;>
          intro p <;> by_cases hp : p.id == pid <;> simp [hp]
      · rw [Bool.not_eq_true] at hnone
        simp only [hnone, Bool.false_eq_true, if_false] at hok
        injection hok with hpair
        have hdb : db = db2 := congrArg Prod.snd hpair
        rw [← hdb]

/-- C8: the batch prediction runs the ids in request order, skips every id
whose call raises `NotFoundException` or `AIServiceException` without
aborting, returns exactly one response per successful id in request order,
and the reported processed count equals the number of successful
predictions. -/
theorem batch_predict_spec (oracle : Oracle) (db : DB) (ids : List ℕ) :
    (batch_predict oracle db ids).1 = ids.filterMap (predict_outcome oracle db) ∧
    total_processed (batch_predict oracle db ids).1 =
      (ids.filter (fun i => (predict_outcome oracle db i).isSome)).length := by
  have hmain : ∀ (l : List ℕ) (d : DB),
      (batch_predict oracle d l).1 = l.filterMap (predict_outcome oracle d) := by
    intro l
    induction l with
    | nil =>
      intro d
      rfl
    | cons i rest ih =>
      intro d
      cases hcall : predict_planet oracle d i with
      | error e =>
        have houtcome : predict_outcome oracle d i = none := by
          unfold predict_outcome
          rw [hcall]
          rfl
        simp only [batch_predict, hcall, List.filterMap_cons, houtcome]
        exact ih d
      | ok pr =>
        obtain ⟨resp, d2⟩ := pr
        have houtcome : predict_outcome oracle d i = some resp := by
          unfold predict_outcome
          rw [hcall]
          rfl
        simp only [batch_predict, hcall, List.filterMap_cons, houtcome]
        rw [ih d2]
        have hfun : predict_outcome oracle d2 = predict_outcome oracle d := by
          funext k
          exact predict_planet_ok_pres oracle d i resp d2 hcall k
        rw [hfun]
  refine ⟨hmain ids db, ?_⟩
  simp only [total_processed, hmain ids db]
  induction ids with
  | nil => rfl
  | cons i rest ih =>
    cases h : predict_outcome oracle db i with
    | none => simp [List.filterMap_cons, List.filter_cons, h, ih]
    | some r => simp [List.filterMap_cons, List.filter_cons, h, ih]

/-- Helper: `arctan2` always lands in `(-π, π]`. -/
theorem arctan2_mem_Ioc (y x : ℝ) :
    -Real.pi < arctan2 y x ∧ arctan2 y x ≤ Real.pi := by
  have hpi := Real.pi_pos
  have harc1 := Real.arctan_lt_pi_div_two (y / x)
  have harc2 := Real.neg_pi_div_two_lt_arctan (y / x)
  unfold arctan2
  split_ifs with hx hx2 hy hy2 hy3
  · constructor <;> linarith
  · have hyx : y / x ≤ 0 := div_nonpos_of_nonneg_of_nonpos hy (le_of_lt hx2)
    have : Real.arctan (y / x) ≤ 0 := by
      have := Real.arctan_strictMono.monotone hyx
      simpa [Real.arctan_zero] using this
    constructor <;> linarith
  · have hyneg : y < 0 := lt_of_not_ge hy
    have hyx : 0 < y / x := div_pos_of_neg_of_neg hyneg hx2
    have : 0 < Real.arctan (y / x) := by
      have := Real.arctan_strictMono hyx
      simpa [Real.arctan_zero] using this
    constructor <;> linarith
  · constructor <;> linarith
  · constructor <;> linarith
  · constructor <;> linarith

/-- Helper: `arctan2` inverts the polar parametrization on `(-π, π]` for any
positive radial scale. -/
theorem arctan2_mul_sin_cos (s θ : ℝ) (hs : 0 < s)
    (h1 : -Real.pi < θ) (h2 : θ ≤ Real.pi) :
    arctan2 (s * Real.sin θ) (s * Real.cos θ) = θ := by
  have hpi := Real.pi_pos
  have hsne : s ≠ 0 := ne_of_gt hs
  have hdiv : s * Real.sin θ / (s * Real.cos θ) = Real.tan θ := by
    rw [mul_div_mul_left _ _ hsne, Real.tan_eq_sin_div_cos]
  rcases lt_trichotomy (Real.cos θ) 0 with hc | hc | hc
  · -- cos θ < 0 : the angle is in the closed left half plane
    have hxneg : s * Real.cos θ < 0 := mul_neg_of_pos_of_neg hs hc
    unfold arctan2
    rw [if_neg (by linarith), if_pos hxneg, hdiv]
    by_cases hsin : 0 ≤ Real.sin θ
    · -- second quadrant: θ ∈ (π/2, π]
      rw [if_pos (by positivity)]
      have hθpos : 0 < θ := by
        by_contra hle
        push_neg at hle
        rcases eq_or_lt_of_le hle with hzero | hneg
        · rw [hzero, Real.cos_zero] at hc
          linarith
        · have := Real.sin_neg_of_neg_of_neg_pi_lt hneg h1
          linarith
      have hθgt : Real.pi / 2 < θ := by
        by_contra hle
        push_neg at hle
        have := Real.cos_nonneg_of_neg_pi_div_two_le_of_le (by linarith) hle
        linarith
      have htan : Real.tan θ = Real.tan (θ - Real.pi) :=
        (Real.tan_periodic.sub_eq θ).symm
      rw [htan, Real.arctan_tan (by linarith) (by linarith)]
      ring
    · -- third quadrant: θ ∈ (-π, -π/2)
      push_neg at hsin
      rw [if_neg (by
        push_neg
        have : s * Real.sin θ < 0 := mul_neg_of_pos_of_neg hs hsin
        linarith)]
      have hθneg : θ < 0 := by
        by_contra hge
        push_neg at hge
        have := Real.sin_nonneg_of_nonneg_of_le_pi hge h2
        linarith
      have hθlt : θ < -(Real.pi / 2) := by
        by_contra hge
        push_neg at hge
        have := Real.cos_nonneg_of_neg_pi_div_two_le_of_le hge (by linarith)
        linarith
      have htan : Real.tan θ = Real.tan (θ + Real.pi) := by
        have := Real.tan_periodic θ
        rw [this]
      rw [htan, Real.arctan_tan (by linarith) (by linarith)]
      ring
  · -- cos θ = 0 : θ is ±π/2
    have hsin2 : Real.sin θ ^ 2 = 1 := by
      have := Real.sin_sq_add_cos_sq θ
      rw [hc] at this
      linarith [this]
    obtain ⟨k, hk⟩ := Real.cos_eq_zero_iff.mp hc
    have hkR1 : (-2 : ℝ) < 2 * (k : ℝ) + 1 := by
      by_contra hle
      push_neg at hle
      have : θ ≤ -Real.pi := by
        rw [hk]
        calc (2 * (k:ℝ) + 1) * Real.pi / 2 ≤ (-2) * Real.pi / 2 := by
              apply div_le_div_of_nonneg_right _ (by norm_num)
              exact mul_le_mul_of_nonneg_right hle (le_of_lt hpi)
          _ = -Real.pi := by ring
      linarith
    have hkR2 : 2 * (k : ℝ) + 1 ≤ 2 := by
      by_contra hgt
      push_neg at hgt
      have : Real.pi < θ := by
        rw [hk]
        calc Real.pi = 2 * Real.pi / 2 := by ring
          _ < (2 * (k:ℝ) + 1) * Real.pi / 2 := by
              apply div_lt_div_of_pos_right _ (by norm_num)
              exact mul_lt_mul_of_pos_right hgt hpi
      linarith
    have hkcases : k = -1 ∨ k = 0 := by
      have hk1 : (-2 : ℤ) < k := by
        have : (-2 : ℝ) < (k : ℝ) := by linarith
        exact_mod_cast this
      have hk2 : (k : ℤ) < 1 := by
        have : (k : ℝ) < 1 := by linarith
        exact_mod_cast this
      omega
    rcases hkcases with rfl | rfl
    · -- θ = -π/2
      have hθ : θ = -(Real.pi / 2) := by
        rw [hk]
        push_cast
        ring
      subst hθ
      have hsin : Real.sin (-(Real.pi / 2)) = -1 := by
        rw [Real.sin_neg, Real.sin_pi_div_two]
      unfold arctan2
      rw [hsin]
      rw [if_neg (by nlinarith), if_neg (by nlinarith), if_neg (by nlinarith),
        if_pos (by nlinarith)]
    · -- θ = π/2
      have hθ : θ = Real.pi / 2 := by
        rw [hk]
        push_cast
        ring
      subst hθ
      have hsin : Real.sin (Real.pi / 2) = 1 := Real.sin_pi_div_two
      unfold arctan2
      rw [hsin]
      rw [if_neg (by nlinarith), if_neg (by nlinarith), if_pos (by nlinarith)]
  · -- cos θ > 0 : θ ∈ (-π/2, π/2)
    have hxpos : 0 < s * Real.cos θ := mul_pos hs hc
    have hθlt : θ < Real.pi / 2 := by
      by_contra hge
      push_neg at hge
      have := Real.cos_nonpos_of_pi_div_two_le_of_le hge (by linarith)
      linarith
    have hθgt : -(Real.pi / 2) < θ := by
      by_contra hge
      push_neg at hge
      have hmem : Real.pi / 2 ≤ -θ := by linarith
      have := Real.cos_nonpos_of_pi_div_two_le_of_le hmem (by linarith)
      rw [Real.cos_neg] at this
      linarith
    unfold arctan2
    rw [if_pos hxpos, hdiv, Real.arctan_tan hθgt hθlt]

/-- Helper: the degree/radian conversions are mutually inverse. -/
theorem degrees_radians (d : ℝ) : degrees (radians d) = d := by
  unfold degrees radians
  field_simp

/-- Helper: `xyz_to_ra_dec` with its local bindings unfolded. -/
theorem xyz_to_ra_dec_def (x y z : ℝ) :
    xyz_to_ra_dec x y z =
      (if degrees (arctan2 y x) < 0 then degrees (arctan2 y x) + 360
       else degrees (arctan2 y x),
       if 0 < Real.sqrt (x ^ 2 + y ^ 2 + z ^ 2) then
         degrees (Real.arcsin (z / Real.sqrt (x ^ 2 + y ^ 2 + z ^ 2)))
       else 0,
       Real.sqrt (x ^ 2 + y ^ 2 + z ^ 2)) := rfl

/-- C10: the coordinate conversions are mutually inverse: converting
`(ra, dec, r)` with `ra ∈ [0, 360)`, `dec ∈ (-90, 90)`, `r > 0` to Cartesian
coordinates and back returns exactly `(ra, dec, r)`; and for every Cartesian
point the conversion returns `ra ∈ [0, 360)` and `r ≥ 0`, with `dec = 0`
when `r = 0`. -/
theorem coordinates_roundtrip_range :
    (∀ ra dec r : ℝ, 0 ≤ ra → ra < 360 → -90 < dec → dec < 90 → 0 < r →
      xyz_to_ra_dec (ra_dec_to_xyz ra dec r).x (ra_dec_to_xyz ra dec r).y
        (ra_dec_to_xyz ra dec r).z = (ra, dec, r)) ∧
    (∀ x y z : ℝ,
      0 ≤ (xyz_to_ra_dec x y z).1 ∧ (xyz_to_ra_dec x y z).1 < 360 ∧
      0 ≤ (xyz_to_ra_dec x y z).2.2 ∧
      ((xyz_to_ra_dec x y z).2.2 = 0 → (xyz_to_ra_dec x y z).2.1 = 0)) := by
  have hpi := Real.pi_pos
  constructor
  · intro ra dec r hra0 hra1 hdec0 hdec1 hr
    have hx : (ra_dec_to_xyz ra dec r).x =
        r * Real.cos (radians dec) * Real.cos (radians ra) := rfl
    have hy : (ra_dec_to_xyz ra dec r).y =
        r * Real.cos (radians dec) * Real.sin (radians ra) := rfl
    have hz : (ra_dec_to_xyz ra dec r).z = r * Real.sin (radians dec) := rfl
    have hd1 : -(Real.pi / 2) < radians dec := by
      unfold radians
      nlinarith
    have hd2 : radians dec < Real.pi / 2 := by
      unfold radians
      nlinarith
    have hcosd : 0 < Real.cos (radians dec) := Real.cos_pos_of_mem_Ioo ⟨hd1, hd2⟩
    have hs : 0 < r * Real.cos (radians dec) := mul_pos hr hcosd
    have hsum : (r * Real.cos (radians dec) * Real.cos (radians ra)) ^ 2 +
        (r * Real.cos (radians dec) * Real.sin (radians ra)) ^ 2 +
        (r * Real.sin (radians dec)) ^ 2 = r ^ 2 := by
      have hA := Real.sin_sq_add_cos_sq (radians ra)
      have hD := Real.sin_sq_add_cos_sq (radians dec)
      linear_combination (r ^ 2 * Real.cos (radians dec) ^ 2) * hA + r ^ 2 * hD
    rw [xyz_to_ra_dec_def, hx, hy, hz]
    have hsqrt : Real.sqrt ((r * Real.cos (radians dec) * Real.cos (radians ra)) ^ 2 +
        (r * Real.cos (radians dec) * Real.sin (radians ra)) ^ 2 +
        (r * Real.sin (radians dec)) ^ 2) = r := by
      rw [hsum]
      exact Real.sqrt_sq hr.le
    rw [hsqrt, if_pos hr]
    have hzdiv : r * Real.sin (radians dec) / r = Real.sin (radians dec) :=
      mul_div_cancel_left₀ _ (ne_of_gt hr)
    rw [hzdiv, Real.arcsin_sin hd1.le hd2.le, degrees_radians]
    by_cases hra180 : ra ≤ 180
    · have ha1 : -Real.pi < radians ra := by
        unfold radians
        nlinarith
      have ha2 : radians ra ≤ Real.pi := by
        unfold radians
        nlinarith
      rw [arctan2_mul_sin_cos (r * Real.cos (radians dec)) (radians ra) hs ha1 ha2,
        degrees_radians, if_neg (not_lt.mpr hra0)]
    · push_neg at hra180
      have ha1 : Real.pi < radians ra := by
        unfold radians
        nlinarith
      have ha2 : radians ra < 2 * Real.pi := by
        unfold radians
        nlinarith
      rw [← Real.sin_sub_two_pi (radians ra), ← Real.cos_sub_two_pi (radians ra)]
      rw [arctan2_mul_sin_cos (r * Real.cos (radians dec))
        (radians ra - 2 * Real.pi) hs (by linarith) (by linarith)]
      have hdeg : degrees (radians ra - 2 * Real.pi) = ra - 360 := by
        unfold degrees radians
        field_simp
        ring
      rw [hdeg, if_pos (by linarith : ra - 360 < 0)]
      have hra' : ra - 360 + 360 = ra := by ring
      rw [hra']
  · intro x y z
    obtain ⟨ht1, ht2⟩ := arctan2_mem_Ioc y x
    have hconv : Real.pi * (180 / Real.pi) = 180 := by
      field_simp
    have hdeg1 : -180 < degrees (arctan2 y x) := by
      unfold degrees
      have hmul := mul_lt_mul_of_pos_right ht1
        (show (0:ℝ) < 180 / Real.pi by positivity)
      nlinarith [hmul, hconv]
    have hdeg2 : degrees (arctan2 y x) ≤ 180 := by
      unfold degrees
      have hmul := mul_le_mul_of_nonneg_right ht2
        (show (0:ℝ) ≤ 180 / Real.pi by positivity)
      nlinarith [hmul, hconv]
    rw [xyz_to_ra_dec_def]
    refine ⟨?_, ?_, Real.sqrt_nonneg _, ?_⟩
    · show 0 ≤ if degrees (arctan2 y x) < 0 then degrees (arctan2 y x) + 360
        else degrees (arctan2 y x)
      split_ifs with hneg
      · linarith
      · exact le_of_not_lt hneg
    · show (if degrees (arctan2 y x) < 0 then degrees (arctan2 y x) + 360
        else degrees (arctan2 y x)) < 360
      split_ifs with hneg
      · linarith
      · linarith
    · intro h0
      show (if 0 < Real.sqrt (x ^ 2 + y ^ 2 + z ^ 2) then
          degrees (Real.arcsin (z / Real.sqrt (x ^ 2 + y ^ 2 + z ^ 2))) else 0) = 0
      rw [if_neg (not_lt.mpr (le_of_eq h0))]

/-- Witness for C10: the round trip and range facts applied at the concrete
point `(ra, dec, r) = (0, 0, 1)` and the Cartesian origin. -/
theorem coordinates_roundtrip_range_witness :
    (xyz_to_ra_dec (ra_dec_to_xyz 0 0 1).x (ra_dec_to_xyz 0 0 1).y
      (ra_dec_to_xyz 0 0 1).z = ((0 : ℝ), (0 : ℝ), (1 : ℝ))) ∧
    (0 ≤ (xyz_to_ra_dec 0 0 0).1 ∧ (xyz_to_ra_dec 0 0 0).1 < 360 ∧
      0 ≤ (xyz_to_ra_dec 0 0 0).2.2 ∧
      ((xyz_to_ra_dec 0 0 0).2.2 = 0 → (xyz_to_ra_dec 0 0 0).2.1 = 0)) :=
  ⟨coordinates_roundtrip_range.1 0 0 1 (by norm_num) (by norm_num) (by norm_num)
      (by norm_num) (by norm_num),
   coordinates_roundtrip_range.2 0 0 0⟩

end FindYourFriend



